import Mathlib

/-!
# Verification of the SlaveShell plan-execution core

This file is a shallow embedding, in Lean 4, of the plan-execution
dispatcher of `src/index.js`: the resource registries (running
processes, file watchers, database connections), the per-kind action
executors (file, package, process, database, git, deployment,
project-setup), the dispatcher loop of `executeAICommand`, the JSON
clean-and-extract step of `executeAICommand`, and the shutdown drain
of `main`.

The global `projectState` object together with the Node process's
working directory is embedded as an explicit `SessionState` record.
JavaScript `Map`s are embedded as insertion-ordered association lists
with lookup/set/delete mirroring `Map.get`/`Map.set`/`Map.delete`.
Calls out of the process (shell commands via `exec`, signal delivery
via `ChildProcess.kill`, watcher and database driver `close`, the
MongoDB driver) are the boundary of the embedding: their outcomes are
supplied by a `World` oracle, and each embedded function is a
function of the oracle, so theorems quantify over every possible
outcome of the external calls.  Console output is not modelled.
-/

namespace SlaveShell

/-! ## Association-list registries (JavaScript `Map` semantics) -/

/-- Embedding of `Map.get k`: first entry whose key is `k` (a JS `Map` holds at most one). -/
def listGet (k : String) : List (String × α) → Option α
  | [] => none
  | (k', v) :: rest => if k' = k then some v else listGet k rest

/-- Embedding of `Map.set k v`: replace in place if the key is present, else append. -/
def listSet (k : String) (v : α) : List (String × α) → List (String × α)
  | [] => [(k, v)]
  | (k', v') :: rest => if k' = k then (k, v) :: rest else (k', v') :: listSet k v rest

/-- Embedding of `Map.delete k`: remove the (first) entry whose key is `k`. -/
def listDel (k : String) : List (String × α) → List (String × α)
  | [] => []
  | (k', v') :: rest => if k' = k then rest else (k', v') :: listDel k rest

/-- Keys of a registry, in insertion order. -/
def keysOf (l : List (String × α)) : List String := l.map Prod.fst

/-! ## Session state and the external-world oracle -/

/-- Outcome of one `ChildProcess.kill()` call: signal delivered, signal not
deliverable because the process already exited (Node returns `false`, no
throw), or the call threw. -/
inductive KillOutcome where
  | delivered
  | notDelivered
  | threw
deriving DecidableEq, Repr

/-- One value of `projectState.runningProcesses` (`startProcess`,
src/index.js). The opaque `ChildProcess` handle is embedded as a numeric
`pid`; wall-clock `startTime` is not modelled and carried as `0`. -/
structure ProcEntry where
  pid : Nat
  command : String
  startTime : Nat := 0
  logFile : Option String := none
deriving DecidableEq, Repr

/-- The mutable global state of `src/index.js`: the `projectState` object
(`currentDirectory`, `runningProcesses`, `fileWatchers`, `databases`),
the Node process working directory (`cwd`, mutated by `process.chdir`),
and a model of the filesystem (`files`, `dirs`). The `killAttempts`,
`closedWatchers` and `closedDbs` ghost fields record which external
handles have been signalled/closed, and the `next*` counters allocate
fresh handles for `spawn` / `chokidar.watch` / `mongoose.connect`. -/
structure SessionState where
  currentDirectory : String
  cwd : String
  runningProcesses : List (String × ProcEntry) := []
  fileWatchers : List (String × Nat) := []
  databases : List (String × Nat) := []
  files : List (String × String) := []
  dirs : List String := []
  killAttempts : List Nat := []
  closedWatchers : List Nat := []
  closedDbs : List Nat := []
  nextPid : Nat := 0
  nextWatcherId : Nat := 0
  nextConnId : Nat := 0
deriving DecidableEq, Repr

/-- Oracle for the outcomes of calls that leave the process: `exec`
success and captured stdout per command string, `kill` outcome per
process handle, watcher/connection `close` outcome per handle, and the
MongoDB driver. -/
structure World where
  execOk : String → Bool
  execOut : String → String
  killOut : Nat → KillOutcome
  watcherCloseOk : Nat → Bool
  dbCloseOk : Nat → Bool
  mongoConnectOk : String → Bool
  mongoActionOk : String → String → Bool

/-- The `path.isAbsolute` test (POSIX): the path begins with a slash. -/
def isAbsolutePath (p : String) : Bool :=
  match p.toList with
  | c :: _ => c = '/'
  | [] => false

/-- Embedding of `resolveProjectPath` (src/index.js): absolute paths pass through,
relative ones are joined onto `projectState.currentDirectory`. -/
def resolveProjectPath (st : SessionState) (filePath : String) : String :=
  if isAbsolutePath filePath then filePath
  else st.currentDirectory ++ "/" ++ filePath

/-- Resolution of a path given directly to an `fs` call (relative to the
real process working directory, not `projectState.currentDirectory`). -/
def resolveCwd (st : SessionState) (filePath : String) : String :=
  if isAbsolutePath filePath then filePath
  else st.cwd ++ "/" ++ filePath

/-- Embedding of `execPromise` (src/index.js): runs `command` with
`cwd: projectState.currentDirectory`; resolves with trimmed stdout on
exit code 0, rejects otherwise. It does not mutate any state. -/
def execPromise (w : World) (command : String) : Except String String :=
  if w.execOk command then .ok (w.execOut command)
  else .error ("Command failed: " ++ command)

/-! ## File watcher and file executor -/

/-- Embedding of `watchFiles` (src/index.js): no-op when `dirPath` is already in
`projectState.fileWatchers`; otherwise create a `chokidar` watcher
(embedded as a fresh handle) and register it. -/
def watchFiles (st : SessionState) (dirPath : String) : SessionState :=
  if (listGet dirPath st.fileWatchers).isSome then st
  else
    { st with
      fileWatchers := listSet dirPath st.nextWatcherId st.fileWatchers
      nextWatcherId := st.nextWatcherId + 1 }

/-- The `options` argument of a `rmdir` file-operation. -/
structure FileOpOptions where
  recursive : Bool := false
  force : Bool := false
deriving DecidableEq, Repr

/-- One `file-operation` action (the fields destructured at the top of
`performFileOperation`). -/
structure FileOperation where
  action : String
  path : String
  content : Option String := none
  newPath : Option String := none
  options : Option FileOpOptions := none
deriving DecidableEq, Repr

/-- Normalized result of `performFileOperation`. -/
structure FileResult where
  success : Bool
  content : Option String := none
  files : Option (List String) := none
  message : Option String := none
deriving DecidableEq, Repr

/-- Embedding of `performFileOperation` (src/index.js): resolves `path` against
`projectState.currentDirectory` and dispatches on `action`; every
filesystem failure is rethrown (the `catch` logs and rethrows, leaving
state as the failing call left it). The filesystem is embedded as the
`files`/`dirs` fields of the state; `fs.rmdir`'s non-empty-directory
failure is not modelled. -/
def performFileOperation (st : SessionState) (op : FileOperation) :
    Except String FileResult × SessionState :=
  let fullPath := resolveProjectPath st op.path
  match op.action with
  | "read" =>
    match listGet fullPath st.files with
    | some data => (.ok { success := true, content := some data }, st)
    | none => (.error ("ENOENT: no such file " ++ fullPath), st)
  | "write" =>
    (.ok { success := true, message := some ("File written: " ++ op.path) },
     { st with files := listSet fullPath (op.content.getD "undefined") st.files })
  | "append" =>
    let old := (listGet fullPath st.files).getD ""
    (.ok { success := true, message := some ("Content appended to: " ++ op.path) },
     { st with files := listSet fullPath (old ++ op.content.getD "undefined") st.files })
  | "delete" =>
    match listGet fullPath st.files with
    | some _ =>
      (.ok { success := true, message := some ("File deleted: " ++ op.path) },
       { st with files := listDel fullPath st.files })
    | none => (.error ("ENOENT: no such file " ++ fullPath), st)
  | "rename" =>
    match listGet fullPath st.files with
    | some data =>
      let files1 := listSet (resolveProjectPath st (op.newPath.getD "undefined")) data (listDel fullPath st.files)
      (.ok { success := true, message := some "File renamed" }, { st with files := files1 })
    | none => (.error ("ENOENT: no such file " ++ fullPath), st)
  | "mkdir" =>
    (.ok { success := true, message := some ("Directory created: " ++ op.path) },
     { st with dirs := if fullPath ∈ st.dirs then st.dirs else st.dirs ++ [fullPath] })
  | "rmdir" =>
    match op.options with
    | some opts =>
      if opts.recursive then
        (.ok { success := true, message := some ("Directory removed: " ++ op.path) },
         { st with dirs := st.dirs.filter (fun d => d ≠ fullPath) })
      else if fullPath ∈ st.dirs then
        (.ok { success := true, message := some ("Directory removed: " ++ op.path) },
         { st with dirs := st.dirs.filter (fun d => d ≠ fullPath) })
      else (.error ("ENOENT: no such directory " ++ fullPath), st)
    | none =>
      if fullPath ∈ st.dirs then
        (.ok { success := true, message := some ("Directory removed: " ++ op.path) },
         { st with dirs := st.dirs.filter (fun d => d ≠ fullPath) })
      else (.error ("ENOENT: no such directory " ++ fullPath), st)
  | "list" =>
    if fullPath ∈ st.dirs then
      (.ok { success := true,
             files := some ((st.files.map Prod.fst).filter
               (fun f => List.isPrefixOf (fullPath ++ "/").toList f.toList)) }, st)
    else (.error ("ENOENT: no such directory " ++ fullPath), st)
  | "watch" =>
    (.ok { success := true, message := some ("Watching: " ++ op.path) },
     watchFiles st fullPath)
  | other => (.error ("Unsupported file operation: " ++ other), st)

/-! ## Database executor -/

/-- One `database-operation` action. The `data`/`query` payloads are
opaque to the dispatcher and are not carried. -/
structure DatabaseOperation where
  dbType : String
  action : String
  connectionString : String := ""
  database : String := ""
  collection : String := ""
deriving DecidableEq, Repr

/-- Normalized result of a MongoDB driver call. -/
structure MongoResult where
  success : Bool
  message : Option String := none
deriving DecidableEq, Repr

/-- Embedding of `handleMongoDBOperation` (src/index.js): connect once per distinct
connection string (registering the connection), then dispatch the
action to the driver; unknown actions throw. Driver call outcomes come
from the `World` oracle. -/
def handleMongoDBOperation (w : World) (st : SessionState) (op : DatabaseOperation) :
    Except String MongoResult × SessionState :=
  let conn :=
    if (listGet op.connectionString st.databases).isSome then .ok st
    else if w.mongoConnectOk op.connectionString then
      .ok { st with
            databases := listSet op.connectionString st.nextConnId st.databases
            nextConnId := st.nextConnId + 1 }
    else (.error ("MongoNetworkError: failed to connect to " ++ op.connectionString) :
      Except String SessionState)
  match conn with
  | .error e => (.error e, st)
  | .ok st1 =>
    match op.action with
    | "create-collection" =>
      if w.mongoActionOk op.action op.collection then
        (.ok { success := true, message := some ("Collection " ++ op.collection ++ " created") }, st1)
      else (.error "MongoServerError", st1)
    | "insert" =>
      if w.mongoActionOk op.action op.collection then
        (.ok { success := true }, st1)
      else (.error "MongoServerError", st1)
    | "query" =>
      if w.mongoActionOk op.action op.collection then
        (.ok { success := true }, st1)
      else (.error "MongoServerError", st1)
    | "drop-collection" =>
      if w.mongoActionOk op.action op.collection then
        (.ok { success := true, message := some ("Collection " ++ op.collection ++ " dropped") }, st1)
      else (.error "MongoServerError", st1)
    | other => (.error ("Unsupported MongoDB operation: " ++ other), st1)

/-- Embedding of `handleDatabaseOperation` (src/index.js): `mongodb` is delegated to
the MongoDB handler; `mysql`, `postgres` and `sqlite` print a
"not yet implemented" notice and return `null` (embedded as `.ok none`);
any other type throws `Unsupported database type`. The `catch` logs and
rethrows, so errors propagate unchanged. -/
def handleDatabaseOperation (w : World) (st : SessionState) (op : DatabaseOperation) :
    Except String (Option MongoResult) × SessionState :=
  match op.dbType with
  | "mongodb" =>
    match handleMongoDBOperation w st op with
    | (.ok r, st') => (.ok (some r), st')
    | (.error e, st') => (.error e, st')
  | "mysql" => (.ok none, st)
  | "postgres" => (.ok none, st)
  | "sqlite" => (.ok none, st)
  | other => (.error ("Unsupported database type: " ++ other), st)

/-! ## Git executor -/

/-- One `git-operation` action. -/
structure GitOperation where
  action : String
  repository : Option String := none
  branch : Option String := none
  message : Option String := none
deriving DecidableEq, Repr

/-- Normalized result of `handleGitOperation`. -/
structure GitResult where
  success : Bool
  message : String
deriving DecidableEq, Repr

/-- Embedding of `handleGitOperation` (src/index.js): maps the action to a fixed git
command line (`branch` defaults to `main`, commit `message` to
`Commit by AI Agent`; a missing `repository`/`branch` interpolates as
the string `undefined`), runs it via `execPromise`, and rethrows
failures. No state is mutated. -/
def handleGitOperation (w : World) (st : SessionState) (op : GitOperation) :
    Except String GitResult × SessionState :=
  match op.action with
  | "init" =>
    match execPromise w "git init" with
    | .ok _ => (.ok { success := true, message := "Git repository initialized" }, st)
    | .error e => (.error e, st)
  | "clone" =>
    let msg := "Repository cloned from " ++ op.repository.getD "undefined"
    match execPromise w ("git clone " ++ op.repository.getD "undefined") with
    | .ok _ => (.ok { success := true, message := msg }, st)
    | .error e => (.error e, st)
  | "add" =>
    match execPromise w "git add ." with
    | .ok _ => (.ok { success := true, message := "Changes staged" }, st)
    | .error e => (.error e, st)
  | "commit" =>
    match execPromise w ("git commit -m \"" ++ op.message.getD "Commit by AI Agent" ++ "\"") with
    | .ok _ => (.ok { success := true, message := "Changes committed" }, st)
    | .error e => (.error e, st)
  | "push" =>
    match execPromise w ("git push origin " ++ op.branch.getD "main") with
    | .ok _ => (.ok { success := true, message := "Pushed to " ++ op.branch.getD "main" }, st)
    | .error e => (.error e, st)
  | "checkout" =>
    let msg := "Switched to branch " ++ op.branch.getD "undefined"
    match execPromise w ("git checkout " ++ op.branch.getD "undefined") with
    | .ok _ => (.ok { success := true, message := msg }, st)
    | .error e => (.error e, st)
  | other => (.error ("Unsupported Git operation: " ++ other), st)

/-! ## Package executor -/

/-- One `package-operation` action. -/
structure PackageOperation where
  manager : String
  action : String
  packages : List String := []
  options : Option String := none
  directory : Option String := none
deriving DecidableEq, Repr

/-- Normalized success result of `handlePackageOperation`. -/
structure PackageResult where
  success : Bool
  output : String
deriving DecidableEq, Repr

/-- Embedding of `handlePackageOperation` (src/index.js): `process.chdir` into
`directory` (resolved against `projectState.currentDirectory`) when
given, build one command string from the manager/action tables
(unsupported combinations throw before any shell invocation), run it,
and chdir back to `projectState.currentDirectory` — on success only
when a `directory` was given, and on any error unconditionally (the
`catch` path). -/
def handlePackageOperation (w : World) (st : SessionState) (op : PackageOperation) :
    Except String PackageResult × SessionState :=
  let st1 :=
    match op.directory with
    | some d => { st with cwd := resolveProjectPath st d }
    | none => st
  let command : Except String String :=
    match op.manager with
    | "npm" =>
      match op.action with
      | "install" => .ok ("npm install " ++ String.intercalate " " op.packages ++ " " ++ op.options.getD "")
      | "uninstall" => .ok ("npm uninstall " ++ String.intercalate " " op.packages)
      | "update" => .ok ("npm update " ++ String.intercalate " " op.packages)
      | "init" => .ok "npm init -y"
      | "run" => .ok ("npm run " ++ op.options.getD "undefined")
      | other => .error ("Unsupported NPM action: " ++ other)
    | "pip" =>
      match op.action with
      | "install" => .ok ("pip install " ++ String.intercalate " " op.packages ++ " " ++ op.options.getD "")
      | "uninstall" => .ok ("pip uninstall -y " ++ String.intercalate " " op.packages)
      | "update" => .ok ("pip install --upgrade " ++ String.intercalate " " op.packages)
      | other => .error ("Unsupported pip action: " ++ other)
    | other => .error ("Unsupported package manager: " ++ other)
  match command with
  | .error e => (.error e, { st1 with cwd := st1.currentDirectory })
  | .ok cmd =>
    match execPromise w cmd with
    | .ok out =>
      let st2 := if op.directory.isSome then { st1 with cwd := st1.currentDirectory } else st1
      (.ok { success := true, output := out }, st2)
    | .error e => (.error e, { st1 with cwd := st1.currentDirectory })

/-! ## Process executor -/

/-- The `options` argument of `startProcess`. -/
structure StartOptions where
  name : Option String := none
  waitForExit : Bool := false
  cwd : Option String := none
  logFile : Option String := none
deriving DecidableEq, Repr

/-- Result of `startProcess`. -/
structure StartResult where
  success : Bool
  output : Option String := none
  processName : Option String := none
deriving DecidableEq, Repr

/-- Result of `stopProcess` (it never throws: every path returns). -/
structure StopResult where
  success : Bool
  message : Option String := none
  error : Option String := none
deriving DecidableEq, Repr

/-- The key default `command.split(' ')[0]`: the prefix of the command
before the first space (the whole command when it has no space). -/
def startFirstToken (command : String) : String :=
  String.mk (command.toList.takeWhile (fun c => c ≠ ' '))

/-- Embedding of `stopProcess` (src/index.js): absent name → failure result, registry
untouched; present name → `process.kill()` (recorded in
`killAttempts`), and on a non-throwing kill the entry is deleted and
success returned; a throwing kill is caught, leaves the entry in place
and returns a failure result. -/
def stopProcess (w : World) (st : SessionState) (processName : String) :
    StopResult × SessionState :=
  match listGet processName st.runningProcesses with
  | none =>
    ({ success := false, message := some ("No running process named " ++ processName) }, st)
  | some entry =>
    match w.killOut entry.pid with
    | .threw =>
      ({ success := false, error := some ("Error stopping process " ++ processName) },
       { st with killAttempts := st.killAttempts ++ [entry.pid] })
    | _ =>
      ({ success := true, message := some ("Process " ++ processName ++ " stopped") },
       { st with
         runningProcesses := listDel processName st.runningProcesses
         killAttempts := st.killAttempts ++ [entry.pid] })

/-- Embedding of `startProcess` (src/index.js): the registry key is `options.name`,
defaulting to the first space-separated token of the command; an
already-registered key is first passed to `stopProcess`. With
`waitForExit` the command runs via `execPromise` (failure propagates)
and nothing is registered; otherwise `spawn` yields a fresh handle
which is registered under the key and an exit observer. -/
def startProcess (w : World) (st : SessionState) (command : String)
    (options : StartOptions) : Except String StartResult × SessionState :=
  let processName := options.name.getD (startFirstToken command)
  let st1 :=
    if (listGet processName st.runningProcesses).isSome then
      (stopProcess w st processName).2
    else st
  if options.waitForExit then
    match execPromise w command with
    | .ok out => (.ok { success := true, output := some out }, st1)
    | .error e => (.error e, st1)
  else
    let entry : ProcEntry := { pid := st1.nextPid, command := command, logFile := options.logFile }
    (.ok { success := true, processName := some processName },
     { st1 with
       runningProcesses := listSet processName entry st1.runningProcesses
       nextPid := st1.nextPid + 1 })

/-- One row of `listProcesses` (src/index.js); uptime is wall-clock and
not modelled. -/
structure ProcessRow where
  name : String
  command : String
  logFile : String
deriving DecidableEq, Repr

/-- Embedding of `listProcesses` (src/index.js): a pure snapshot of the registry. -/
def listProcesses (st : SessionState) : List ProcessRow :=
  st.runningProcesses.map (fun e =>
    { name := e.1, command := e.2.command, logFile := e.2.logFile.getD "N/A" })

/-! ## Project-setup and deployment executors -/

/-- One entry of `setup.steps` in `handleProjectSetup` (src/index.js);
the untyped `step.type` / `step.details` pair is embedded as a tagged
union. -/
inductive SetupStep where
  | mkdirStep (path : String)
  | writeStep (path : String) (content : String)
  | execStep (command : String)
  | installStep (manager : String) (packages : List String) (options : Option String)
  | startStep (command : String) (options : StartOptions)
  | gitStep (op : GitOperation)
  | databaseStep (op : DatabaseOperation)
  | unknownStep (t : String)
deriving DecidableEq, Repr

/-- One `project-setup` action. -/
structure ProjectSetup where
  projectType : String := ""
  name : String
  path : Option String := none
  steps : List SetupStep := []
deriving DecidableEq, Repr

/-- The `for (const step of setup.steps)` loop of `handleProjectSetup`:
the first throwing step aborts the rest. Raw `fs` paths in `mkdir` and
`write` steps resolve against the (just changed) process working
directory. -/
def runSetupSteps (w : World) : SessionState → List SetupStep → Except String Unit × SessionState
  | st, [] => (.ok (), st)
  | st, step :: rest =>
    let result : Except String Unit × SessionState :=
      match step with
      | .mkdirStep p =>
        let full := resolveCwd st p
        (.ok (), { st with dirs := if full ∈ st.dirs then st.dirs else st.dirs ++ [full] })
      | .writeStep p content =>
        (.ok (), { st with files := listSet (resolveCwd st p) content st.files })
      | .execStep command =>
        match execPromise w command with
        | .ok _ => (.ok (), st)
        | .error e => (.error e, st)
      | .installStep manager packages options =>
        match handlePackageOperation w st { manager := manager, action := "install", packages := packages, options := options } with
        | (.ok _, st') => (.ok (), st')
        | (.error e, st') => (.error e, st')
      | .startStep command options =>
        match startProcess w st command options with
        | (.ok _, st') => (.ok (), st')
        | (.error e, st') => (.error e, st')
      | .gitStep op =>
        match handleGitOperation w st op with
        | (.ok _, st') => (.ok (), st')
        | (.error e, st') => (.error e, st')
      | .databaseStep op =>
        match handleDatabaseOperation w st op with
        | (.ok _, st') => (.ok (), st')
        | (.error e, st') => (.error e, st')
      | .unknownStep _ => (.ok (), st)
    match result with
    | (.ok _, st') => runSetupSteps w st' rest
    | (.error e, st') => (.error e, st')

/-- Embedding of `handleProjectSetup` (src/index.js): `mkdir -p` the project root at
`resolveProjectPath(setup.path || setup.name)`, `process.chdir` into it
AND set `projectState.currentDirectory` to it (a deliberately
persistent change), then run the steps; a failing step rethrows with
the directory change left in place. -/
def handleProjectSetup (w : World) (st : SessionState) (setup : ProjectSetup) :
    Except String Unit × SessionState :=
  let projectPath := resolveProjectPath st (setup.path.getD setup.name)
  let st1 : SessionState :=
    { st with
      dirs := if projectPath ∈ st.dirs then st.dirs else st.dirs ++ [projectPath]
      cwd := projectPath
      currentDirectory := projectPath }
  runSetupSteps w st1 setup.steps

/-- One entry of `deployment.steps` in `handleDeployment` (src/index.js). -/
structure DeployStep where
  stepType : String
  command : Option String := none
  path : Option String := none
  content : Option String := none
deriving DecidableEq, Repr

/-- One `deploy-operation` action. -/
structure Deployment where
  platform : String := ""
  steps : List DeployStep := []
deriving DecidableEq, Repr

/-- The `for (const step of deployment.steps)` loop of
`handleDeployment`: `build`/`upload`/`invoke` run `step.command`;
`config` writes `step.path` when both path and content are given, else
runs `step.command` when given, else does nothing; unknown step types
log and continue; the first throwing step aborts the rest. -/
def runDeploySteps (w : World) : SessionState → List DeployStep → Except String Unit × SessionState
  | st, [] => (.ok (), st)
  | st, step :: rest =>
    let result : Except String Unit × SessionState :=
      match step.stepType with
      | "build" =>
        match execPromise w (step.command.getD "undefined") with
        | .ok _ => (.ok (), st)
        | .error e => (.error e, st)
      | "config" =>
        match step.path, step.content with
        | some p, some c => (.ok (), { st with files := listSet (resolveCwd st p) c st.files })
        | _, _ =>
          match step.command with
          | some cmd =>
            match execPromise w cmd with
            | .ok _ => (.ok (), st)
            | .error e => (.error e, st)
          | none => (.ok (), st)
      | "upload" =>
        match execPromise w (step.command.getD "undefined") with
        | .ok _ => (.ok (), st)
        | .error e => (.error e, st)
      | "invoke" =>
        match execPromise w (step.command.getD "undefined") with
        | .ok _ => (.ok (), st)
        | .error e => (.error e, st)
      | _ => (.ok (), st)
    match result with
    | (.ok _, st') => runDeploySteps w st' rest
    | (.error e, st') => (.error e, st')

/-- Embedding of `handleDeployment` (src/index.js): runs the step list, rethrowing
the first failure. -/
def handleDeployment (w : World) (st : SessionState) (d : Deployment) :
    Except String Unit × SessionState :=
  runDeploySteps w st d.steps

/-! ## Plan dispatcher (`executeAICommand` action loop) -/

/-- One `process-operation` action as seen by the dispatcher. -/
structure ProcessOperation where
  action : String
  command : Option String := none
  options : Option StartOptions := none
deriving DecidableEq, Repr

/-- The tagged union of `plan.actions` entries (`executeAICommand`'s
`switch (action.type)`). -/
inductive Action where
  | projectSetup (s : ProjectSetup)
  | fileOperation (op : FileOperation)
  | packageOperation (op : PackageOperation)
  | processOperation (op : ProcessOperation)
  | databaseOperation (op : DatabaseOperation)
  | gitOperation (op : GitOperation)
  | deployOperation (d : Deployment)
  | unknownAction (t : String)
deriving DecidableEq, Repr

/-- The body of `executeAICommand`'s `switch (action.type)`
(src/index.js): routes one action to its executor; a throw from any
executor propagates; an unknown `action.type` only logs a warning and
continues; a `process-operation` with `stop` and no `options` object
throws a TypeError on `action.options.name`. -/
def executeAction (w : World) (st : SessionState) : Action → Except String Unit × SessionState
  | .projectSetup s => handleProjectSetup w st s
  | .fileOperation op =>
    match performFileOperation st op with
    | (.ok _, st') => (.ok (), st')
    | (.error e, st') => (.error e, st')
  | .packageOperation op =>
    match handlePackageOperation w st op with
    | (.ok _, st') => (.ok (), st')
    | (.error e, st') => (.error e, st')
  | .processOperation op =>
    match op.action with
    | "start" =>
      match startProcess w st (op.command.getD "undefined") (op.options.getD {}) with
      | (.ok _, st') => (.ok (), st')
      | (.error e, st') => (.error e, st')
    | "stop" =>
      match op.options with
      | none => (.error "TypeError: Cannot read properties of undefined", st)
      | some opts => (.ok (), (stopProcess w st (opts.name.getD "undefined")).2)
    | "list" => (.ok (), st)
    | _ => (.ok (), st)
  | .databaseOperation op =>
    match handleDatabaseOperation w st op with
    | (.ok _, st') => (.ok (), st')
    | (.error e, st') => (.error e, st')
  | .gitOperation op =>
    match handleGitOperation w st op with
    | (.ok _, st') => (.ok (), st')
    | (.error e, st') => (.error e, st')
  | .deployOperation d => handleDeployment w st d
  | .unknownAction _ => (.ok (), st)

/-- The `for (const action of plan.actions)` loop of `executeAICommand`
together with its enclosing `try`/`catch`: the first throwing action
stops the loop and the command reports failure (`executeAICommand`
returns `false`); no later action runs and nothing is rolled back. -/
def runActions (w : World) : SessionState → List Action → Bool × SessionState
  | st, [] => (true, st)
  | st, a :: rest =>
    match executeAction w st a with
    | (.ok _, st') => runActions w st' rest
    | (.error _, st') => (false, st')

/-- Helper: the state after a list of actions when every one of them
succeeds (`none` when some action in the list throws). -/
def runActionsOk (w : World) : SessionState → List Action → Option SessionState
  | st, [] => some st
  | st, a :: rest =>
    match executeAction w st a with
    | (.ok _, st') => runActionsOk w st' rest
    | (.error _, _) => none

/-! ## Shutdown drain (the `exit` branch of `main`) -/

/-- The `for (const [name, details] of projectState.runningProcesses)`
exit loop: `await stopProcess(name)` for each registered name, in
insertion order, over the evolving registry. `stopProcess` never
throws, so this loop always completes. -/
def exitStopLoop (w : World) : SessionState → List (String × ProcEntry) → SessionState
  | st, [] => st
  | st, (name, _) :: rest => exitStopLoop w (stopProcess w st name).2 rest

/-- The `for (const [path, watcher] of projectState.fileWatchers)` exit
loop: `watcher.close()` on each watcher. Nothing is removed from the
registry; a throwing `close` propagates out of the loop (there is no
`try`/`catch` on the exit path). -/
def exitWatcherLoop (w : World) : SessionState → List (String × Nat) → Except String SessionState
  | st, [] => .ok st
  | st, (_, wid) :: rest =>
    if w.watcherCloseOk wid then
      exitWatcherLoop w { st with closedWatchers := st.closedWatchers ++ [wid] } rest
    else .error "watcher close failed"

/-- The `for (const [connectionString, connection] of
projectState.databases)` exit loop: `await connection.close()` on each
connection. Nothing is removed from the registry; a throwing `close`
propagates. -/
def exitDbLoop (w : World) : SessionState → List (String × Nat) → Except String SessionState
  | st, [] => .ok st
  | st, (_, cid) :: rest =>
    if w.dbCloseOk cid then
      exitDbLoop w { st with closedDbs := st.closedDbs ++ [cid] } rest
    else .error "connection close failed"

/-- The whole `exit` cleanup sequence of `main` (src/index.js lines
762-783): stop every process, then close every watcher, then close
every database connection. -/
def exitCleanup (w : World) (st : SessionState) : Except String SessionState :=
  let st1 := exitStopLoop w st st.runningProcesses
  match exitWatcherLoop w st1 st1.fileWatchers with
  | .error e => .error e
  | .ok st2 => exitDbLoop w st2 st2.databases

/-! ## Model-response cleaning and plan parsing (`executeAICommand`)

The parse half of `executeAICommand` (src/index.js lines 525-545):
trim the model response, apply the five `replace` chains (markdown
fences, zero-width characters, `//` line comments, block comments),
call `JSON.parse` on the cleaned text, and then — only if that parse
did not throw — re-extract the `indexOf('\x7b') .. lastIndexOf('\x7d')`
span of the *original* trimmed response and parse that. Characters
are handled as `List Char`. -/

/-- The backtick character (code 96). -/
def backtick : Char := Char.ofNat 96

/-- The opening-brace character (code 123). -/
def openBrace : Char := Char.ofNat 123

/-- The closing-brace character (code 125). -/
def closeBrace : Char := Char.ofNat 125

/-- JavaScript's `\s` character class (the cases that matter here). -/
def jsWhitespace (c : Char) : Bool :=
  c = ' ' || c = '\t' || c = '\n' || c = '\r' ||
  c = Char.ofNat 0x0b || c = Char.ofNat 0x0c || c = Char.ofNat 0xa0 ||
  c = Char.ofNat 0x2028 || c = Char.ofNat 0x2029 || c = Char.ofNat 0xfeff

/-- JavaScript line terminators (what `.` does not match). -/
def isLineTerm (c : Char) : Bool :=
  c = '\n' || c = '\r' || c = Char.ofNat 0x2028 || c = Char.ofNat 0x2029

/-- Embedding of `String.prototype.trim`. -/
def jsTrim (l : List Char) : List Char :=
  ((l.dropWhile jsWhitespace).reverse.dropWhile jsWhitespace).reverse

/-- Embedding of `.replace(/\x60\x60\x60json\s?/g, '')`: left-to-right
removal of every triple-backtick-json (plus at most one following
whitespace character). -/
def stripFenceJsonAux : Nat → List Char → List Char
  | 0, l => l
  | fuel + 1, l =>
    match l with
    | a :: b :: c :: 'j' :: 's' :: 'o' :: 'n' :: rest =>
      if a = backtick ∧ b = backtick ∧ c = backtick then
        match rest with
        | [] => []
        | d :: rest' =>
          if jsWhitespace d then stripFenceJsonAux fuel rest'
          else stripFenceJsonAux fuel rest
      else a :: stripFenceJsonAux fuel (b :: c :: 'j' :: 's' :: 'o' :: 'n' :: rest)
    | a :: rest => a :: stripFenceJsonAux fuel rest
    | [] => []

/-- Entry point of the json-fence removal; every scan step consumes at
least one character, so `length + 1` units of fuel never run out. -/
def stripFenceJson (l : List Char) : List Char :=
  stripFenceJsonAux (l.length + 1) l

/-- Embedding of `.replace(/\x60\x60\x60\s?/g, '')`. -/
def stripFenceAux : Nat → List Char → List Char
  | 0, l => l
  | fuel + 1, l =>
    match l with
    | a :: b :: c :: rest =>
      if a = backtick ∧ b = backtick ∧ c = backtick then
        match rest with
        | [] => []
        | d :: rest' =>
          if jsWhitespace d then stripFenceAux fuel rest'
          else stripFenceAux fuel rest
      else a :: stripFenceAux fuel (b :: c :: rest)
    | a :: rest => a :: stripFenceAux fuel rest
    | [] => []

/-- Entry point of the bare-fence removal; fuel as above. -/
def stripFence (l : List Char) : List Char :=
  stripFenceAux (l.length + 1) l

/-- Embedding of the zero-width-character removal (the regex class
u200B-u200D, uFEFF). -/
def stripZeroWidth (l : List Char) : List Char :=
  l.filter (fun c =>
    !(c = Char.ofNat 0x200b || c = Char.ofNat 0x200c || c = Char.ofNat 0x200d ||
      c = Char.ofNat 0xfeff))

/-- Embedding of `.replace(/\/\/.+/g, '')`: a double slash followed by
at least one non-line-terminator swallows the rest of the line. The
fuel bounds the number of scan steps; every step consumes at least one
character, so `length + 1` units never run out. -/
def stripLineCommentsAux : Nat → List Char → List Char
  | 0, l => l
  | fuel + 1, l =>
    match l with
    | '/' :: '/' :: c :: rest =>
      if isLineTerm c then '/' :: stripLineCommentsAux fuel ('/' :: c :: rest)
      else stripLineCommentsAux fuel ((c :: rest).dropWhile (fun ch => !isLineTerm ch))
    | a :: rest => a :: stripLineCommentsAux fuel rest
    | [] => []

/-- Entry point of the line-comment removal. -/
def stripLineComments (l : List Char) : List Char :=
  stripLineCommentsAux (l.length + 1) l

/-- Scan for the first `*/` and return what follows it. -/
def findBlockEnd : List Char → Option (List Char)
  | [] => none
  | a :: rest =>
    match rest with
    | b :: rest' => if a = '*' ∧ b = '/' then some rest' else findBlockEnd rest
    | [] => none

/-- Embedding of `.replace(/\/\*[\s\S]*?\*\//g, '')`: lazily matched
block comments; an unterminated opener is left in place. Fuel as in
`stripLineCommentsAux`. -/
def stripBlockCommentsAux : Nat → List Char → List Char
  | 0, l => l
  | fuel + 1, l =>
    match l with
    | '/' :: '*' :: rest =>
      match findBlockEnd rest with
      | some rest' => stripBlockCommentsAux fuel rest'
      | none => '/' :: '*' :: stripBlockCommentsAux fuel rest
    | a :: rest => a :: stripBlockCommentsAux fuel rest
    | [] => []

/-- Entry point of the block-comment removal. -/
def stripBlockComments (l : List Char) : List Char :=
  stripBlockCommentsAux (l.length + 1) l

/-- The whole five-step `replace` chain applied to the trimmed response. -/
def cleanModelResponse (l : List Char) : List Char :=
  stripBlockComments (stripLineComments (stripZeroWidth (stripFence (stripFenceJson l))))

/-! ### A `JSON.parse` acceptor -/

/-- JSON's insignificant whitespace. -/
def jsonWs (c : Char) : Bool :=
  c = ' ' || c = '\t' || c = '\n' || c = '\r'

/-- Hexadecimal digit. -/
def isHexDigit (c : Char) : Bool :=
  c.isDigit || (decide ('a' ≤ c) && decide (c ≤ 'f')) || (decide ('A' ≤ c) && decide (c ≤ 'F'))

/-- JSON string contents after the opening quote; returns what follows
the closing quote. -/
def parseJStringBody : List Char → Option (List Char)
  | [] => none
  | '"' :: rest => some rest
  | '\\' :: c :: rest =>
    if c = 'u' then
      match rest with
      | h1 :: h2 :: h3 :: h4 :: rest' =>
        if isHexDigit h1 && isHexDigit h2 && isHexDigit h3 && isHexDigit h4 then
          parseJStringBody rest'
        else none
      | _ => none
    else if c = '"' ∨ c = '\\' ∨ c = '/' ∨ c = 'b' ∨ c = 'f' ∨ c = 'n' ∨ c = 'r' ∨ c = 't' then
      parseJStringBody rest
    else none
  | c :: rest => if c.toNat < 0x20 then none else parseJStringBody rest

/-- JSON number: optional exponent part. -/
def parseJExp (l : List Char) : Option (List Char) :=
  match l with
  | c :: rest =>
    if c = 'e' ∨ c = 'E' then
      let rest1 :=
        match rest with
        | s :: r => if s = '+' ∨ s = '-' then r else rest
        | [] => rest
      match rest1 with
      | d :: r => if d.isDigit then some (r.dropWhile Char.isDigit) else none
      | [] => none
    else some l
  | [] => some l

/-- JSON number: optional fraction part, then exponent. -/
def parseJFrac (l : List Char) : Option (List Char) :=
  match l with
  | '.' :: rest =>
    match rest with
    | c :: r => if c.isDigit then parseJExp (r.dropWhile Char.isDigit) else none
    | [] => none
  | _ => parseJExp l

/-- JSON number: `-? (0 | [1-9][0-9]*) frac? exp?`. -/
def parseJNumber (l : List Char) : Option (List Char) :=
  let l1 :=
    match l with
    | '-' :: r => r
    | _ => l
  match l1 with
  | c :: rest =>
    if c = '0' then parseJFrac rest
    else if c.isDigit then parseJFrac (rest.dropWhile Char.isDigit)
    else none
  | [] => none

mutual

/-- Consume one JSON value (with leading whitespace); returns the rest. -/
def parseJValue : Nat → List Char → Option (List Char)
  | 0, _ => none
  | fuel + 1, l =>
    let l1 := l.dropWhile jsonWs
    match l1 with
    | [] => none
    | c :: rest =>
      if c = openBrace then parseJObjectBody fuel rest
      else if c = '[' then parseJArrayBody fuel rest
      else if c = '"' then parseJStringBody rest
      else if c = 't' then
        match rest with
        | 'r' :: 'u' :: 'e' :: r => some r
        | _ => none
      else if c = 'f' then
        match rest with
        | 'a' :: 'l' :: 's' :: 'e' :: r => some r
        | _ => none
      else if c = 'n' then
        match rest with
        | 'u' :: 'l' :: 'l' :: r => some r
        | _ => none
      else parseJNumber l1

/-- After an opening brace: empty object or members. -/
def parseJObjectBody : Nat → List Char → Option (List Char)
  | 0, _ => none
  | fuel + 1, l =>
    let l1 := l.dropWhile jsonWs
    match l1 with
    | [] => none
    | c :: rest => if c = closeBrace then some rest else parseJMembers fuel l1

/-- One or more `"key": value` members separated by commas. -/
def parseJMembers : Nat → List Char → Option (List Char)
  | 0, _ => none
  | fuel + 1, l =>
    match l.dropWhile jsonWs with
    | '"' :: rest =>
      match parseJStringBody rest with
      | none => none
      | some r1 =>
        match r1.dropWhile jsonWs with
        | ':' :: r3 =>
          match parseJValue fuel r3 with
          | none => none
          | some r4 =>
            match r4.dropWhile jsonWs with
            | c :: r6 =>
              if c = ',' then parseJMembers fuel r6
              else if c = closeBrace then some r6
              else none
            | [] => none
        | _ => none
    | _ => none

/-- After an opening bracket: empty array or elements. -/
def parseJArrayBody : Nat → List Char → Option (List Char)
  | 0, _ => none
  | fuel + 1, l =>
    let l1 := l.dropWhile jsonWs
    match l1 with
    | [] => none
    | c :: _ => if c = ']' then some (l1.drop 1) else parseJElems fuel l1

/-- One or more array elements separated by commas. -/
def parseJElems : Nat → List Char → Option (List Char)
  | 0, _ => none
  | fuel + 1, l =>
    match parseJValue fuel l with
    | none => none
    | some r1 =>
      match r1.dropWhile jsonWs with
      | c :: r3 =>
        if c = ',' then parseJElems fuel r3
        else if c = ']' then some r3
        else none
      | [] => none

end

/-- Acceptance test for `JSON.parse(text)`: one JSON value followed only by
whitespace. -/
def jsonParses (l : List Char) : Bool :=
  match parseJValue (2 * l.length + 2) l with
  | some r => (r.dropWhile jsonWs).isEmpty
  | none => false

/-- Index of the first occurrence of `c`. -/
def idxOf? (c : Char) : List Char → Option Nat
  | [] => none
  | a :: rest => if a = c then some 0 else (idxOf? c rest).map (· + 1)

/-- Index of the last occurrence of `c`. -/
def lastIdxOf? (c : Char) (l : List Char) : Option Nat :=
  (idxOf? c l.reverse).map (fun i => l.length - 1 - i)

/-- The parse half of `executeAICommand` (src/index.js lines 525-545):
trim, clean, `JSON.parse(cleanJson)` — whose failure throws straight to
the `catch`, before any extraction — then re-extract the first-brace ..
last-brace span of the trimmed ORIGINAL text and parse that. The
recovered plan text is returned as the `.ok` payload. -/
def extractPlanJson (raw : String) : Except String String :=
  let planText := jsTrim raw.toList
  let cleanJson := cleanModelResponse planText
  if jsonParses cleanJson then
    if (idxOf? openBrace planText).isSome ∧ (idxOf? closeBrace planText).isSome then
      match idxOf? openBrace planText, lastIdxOf? closeBrace planText with
      | some jsonStart, some jsonEndPred =>
        let jsonStr := (planText.drop jsonStart).take (jsonEndPred + 1 - jsonStart)
        if jsonParses jsonStr then .ok (String.mk jsonStr)
        else .error "SyntaxError: Unexpected token in JSON"
      | _, _ => .error "SyntaxError: Unexpected token in JSON"
    else
      if jsonParses planText then .ok (String.mk planText)
      else .error "SyntaxError: Unexpected token in JSON"
  else .error "SyntaxError: Unexpected token in JSON"

/-- One `startProcess` invocation (command plus options), for stating
properties of call sequences. -/
structure StartCall where
  command : String
  options : StartOptions
deriving DecidableEq, Repr

/-- A sequence of `startProcess` calls executed in order, keeping only
the evolving session state. -/
def runStartCalls (w : World) (st : SessionState) (calls : List StartCall) : SessionState :=
  calls.foldl (fun s c => (startProcess w s c.command c.options).2) st

/-! ## Concrete fixtures used by the witness theorems -/

/-- A world where every external call succeeds. -/
def wOk : World where
  execOk _ := true
  execOut _ := ""
  killOut _ := KillOutcome.delivered
  watcherCloseOk _ := true
  dbCloseOk _ := true
  mongoConnectOk _ := true
  mongoActionOk _ _ := true

/-- A world where every shell command fails. -/
def wExecFail : World :=
  { wOk with execOk := fun _ => false }

/-- A world where every kill races a natural exit: the signal is not
deliverable but `ChildProcess.kill()` returns `false` without throwing. -/
def wKillRace : World :=
  { wOk with killOut := fun _ => KillOutcome.notDelivered }

/-- A world where closing a watcher throws. -/
def wWatcherCloseFail : World :=
  { wOk with watcherCloseOk := fun _ => false }

/-- Base session state for the concrete scenarios. -/
def st0 : SessionState :=
  { currentDirectory := "/home/user", cwd := "/home/user" }

/-- One tracked process, one watcher and one database connection. -/
def stOne : SessionState :=
  { st0 with
    runningProcesses := [("bg", { pid := 10, command := "sleep 1000" })]
    fileWatchers := [("/home/user/watched", 20)]
    databases := [("mongodb://localhost/app", 30)]
    nextPid := 11
    nextWatcherId := 21
    nextConnId := 31 }

/-- Concrete package operation with a `directory` field. -/
def c1op : PackageOperation :=
  { manager := "npm", action := "install", packages := ["express"], directory := some "app" }

/-- First dispatcher action of the C5 scenario: write `a.txt`. -/
def c5write : Action :=
  Action.fileOperation { action := "write", path := "a.txt", content := some "hi" }

/-- Second dispatcher action of the C5 scenario: a git clone that the
world makes fail. -/
def c5fail : Action :=
  Action.gitOperation { action := "clone", repository := some "https://example.com/r.git" }

/-- Third dispatcher action of the C5 scenario: would write `b.txt`,
must never run. -/
def c5rest : Action :=
  Action.fileOperation { action := "write", path := "b.txt", content := some "x" }

/-- The state after the first C5 action: `a.txt` exists. -/
def c5st1 : SessionState :=
  { st0 with files := [("/home/user/a.txt", "hi")] }

/-- A model response with prose around the JSON object. -/
def c4ProseInput : String :=
  "Here is the plan: \x7b\"type\": \"git\", \"actions\": []\x7d"

/-- A model response with the JSON object inside a markdown code fence. -/
def c4FencedInput : String :=
  "```json\n\x7b\"type\": \"git\", \"actions\": []\x7d\n```"

/-! ## Registry lemmas -/

@[simp] theorem listGet_nil (k : String) : listGet k ([] : List (String × α)) = none := rfl

@[simp] theorem listGet_cons (k k' : String) (v : α) (rest : List (String × α)) :
    listGet k ((k', v) :: rest) = if k' = k then some v else listGet k rest := rfl

@[simp] theorem listDel_cons (k k' : String) (v : α) (rest : List (String × α)) :
    listDel k ((k', v) :: rest) = if k' = k then rest else (k', v) :: listDel k rest := rfl

theorem listGet_eq_none_of_not_mem {k : String} {l : List (String × α)}
    (h : k ∉ keysOf l) : listGet k l = none := by
  induction l with
  | nil => rfl
  | cons p rest ih =>
    obtain ⟨k', v⟩ := p
    simp only [keysOf, List.map_cons, List.mem_cons] at h
    push_neg at h
    rw [listGet_cons, if_neg (fun hh => h.1 hh.symm)]
    exact ih (by simpa [keysOf] using h.2)

theorem keysOf_listDel_sublist (k : String) (l : List (String × α)) :
    (keysOf (listDel k l)).Sublist (keysOf l) := by
  induction l with
  | nil => simp [listDel, keysOf]
  | cons p rest ih =>
    obtain ⟨k', v⟩ := p
    by_cases h : k' = k
    · simp [listDel, h, keysOf]
    · simpa [listDel, h, keysOf] using ih

theorem nodup_keys_listDel {k : String} {l : List (String × α)}
    (h : (keysOf l).Nodup) : (keysOf (listDel k l)).Nodup :=
  (keysOf_listDel_sublist k l).nodup h

theorem keysOf_listSet_mem {k : String} (v : α) {l : List (String × α)}
    (hmem : k ∈ keysOf l) : keysOf (listSet k v l) = keysOf l := by
  induction l with
  | nil => simp [keysOf] at hmem
  | cons p rest ih =>
    obtain ⟨k', v'⟩ := p
    by_cases h : k' = k
    · subst h; simp [listSet, keysOf]
    · have hmem' : k ∈ keysOf rest := by
        rcases (by simpa [keysOf] using hmem : k = k' ∨ k ∈ List.map Prod.fst rest) with h1 | h1
        · exact absurd h1.symm h
        · simpa [keysOf] using h1
      simp only [listSet, if_neg h, keysOf, List.map_cons]
      rw [show List.map Prod.fst (listSet k v rest) = keysOf (listSet k v rest) from rfl, ih hmem']
      rfl

theorem keysOf_listSet_not_mem {k : String} (v : α) {l : List (String × α)}
    (hmem : k ∉ keysOf l) : keysOf (listSet k v l) = keysOf l ++ [k] := by
  induction l with
  | nil => simp [listSet, keysOf]
  | cons p rest ih =>
    obtain ⟨k', v'⟩ := p
    simp only [keysOf, List.map_cons, List.mem_cons] at hmem
    push_neg at hmem
    have h : ¬ k' = k := fun hh => hmem.1 hh.symm
    simp only [listSet, if_neg h, keysOf, List.map_cons]
    rw [show List.map Prod.fst (listSet k v rest) = keysOf (listSet k v rest) from rfl,
      ih (by simpa [keysOf] using hmem.2)]
    rfl

theorem nodup_keys_listSet {k : String} {v : α} {l : List (String × α)}
    (h : (keysOf l).Nodup) : (keysOf (listSet k v l)).Nodup := by
  by_cases hmem : k ∈ keysOf l
  · rw [keysOf_listSet_mem v hmem]; exact h
  · rw [keysOf_listSet_not_mem v hmem]
    exact List.Nodup.append h (List.nodup_singleton k) (by simpa using hmem)

theorem listGet_listSet_self (k : String) (v : α) (l : List (String × α)) :
    listGet k (listSet k v l) = some v := by
  induction l with
  | nil => simp [listSet, listGet]
  | cons p rest ih =>
    obtain ⟨k', v'⟩ := p
    by_cases h : k' = k
    · simp [listSet, h, listGet]
    · simp [listSet, h, listGet, ih]

theorem listGet_listDel_self {k : String} {l : List (String × α)}
    (h : (keysOf l).Nodup) : listGet k (listDel k l) = none := by
  induction l with
  | nil => rfl
  | cons p rest ih =>
    obtain ⟨k', v⟩ := p
    simp only [keysOf, List.map_cons, List.nodup_cons] at h
    by_cases hk : k' = k
    · subst hk
      simp only [listDel_cons, if_pos rfl]
      exact listGet_eq_none_of_not_mem h.1
    · simp only [listDel_cons, if_neg hk, listGet_cons, if_neg hk]
      exact ih h.2

theorem countP_eq_zero_of_not_mem_keys {k : String} {l : List (String × α)}
    (h : k ∉ keysOf l) : l.countP (fun e => e.1 = k) = 0 := by
  rw [List.countP_eq_zero]
  intro e he hcontra
  simp only [decide_eq_true_eq] at hcontra
  exact h (hcontra ▸ List.mem_map_of_mem Prod.fst he)

theorem countP_key_le_one {k : String} {l : List (String × α)}
    (h : (keysOf l).Nodup) : l.countP (fun e => e.1 = k) ≤ 1 := by
  induction l with
  | nil => simp
  | cons p rest ih =>
    obtain ⟨k', v⟩ := p
    simp only [keysOf, List.map_cons, List.nodup_cons] at h
    by_cases hk : k' = k
    · subst hk
      have hz : rest.countP (fun e => e.1 = k') = 0 :=
        countP_eq_zero_of_not_mem_keys (by simpa [keysOf] using h.1)
      simp [List.countP_cons, hz]
    · have := ih h.2
      simp only [List.countP_cons, decide_eq_true_eq, hk, if_false]
      simpa using this

theorem countP_key_listSet_self (k : String) (v : α) (l : List (String × α))
    (h : l.countP (fun e => e.1 = k) ≤ 1) :
    (listSet k v l).countP (fun e => e.1 = k) = 1 := by
  induction l with
  | nil => simp [listSet]
  | cons p rest ih =>
    obtain ⟨k', v'⟩ := p
    by_cases hk : k' = k
    · subst hk
      simp only [List.countP_cons, decide_eq_true_eq] at h
      simp only [listSet, if_pos rfl, List.countP_cons, decide_eq_true_eq]
      have hz : rest.countP (fun e => e.1 = k') = 0 := by
        simp only [if_true] at h
        omega
      simp [hz]
    · simp only [List.countP_cons, decide_eq_true_eq, hk, if_false, add_zero] at h
      simp only [listSet, if_neg hk, List.countP_cons, decide_eq_true_eq, hk, if_false,
        add_zero]
      exact ih h

/-! ## Claim theorems -/

/-- C8: for every process name absent from the registry, `stopProcess`
returns a failure result (`success := false`) without throwing (its
embedding is total: every path returns a `StopResult`), and leaves the
session state — in particular the process registry — unchanged. -/
theorem stopProcess_absent_name_fails_without_mutation
    (w : World) (st : SessionState) (name : String)
    (habs : listGet name st.runningProcesses = none) :
    stopProcess w st name =
      ({ success := false, message := some ("No running process named " ++ name) }, st) := by
  unfold stopProcess
  rw [habs]

/-- Witness for C8 at the concrete absent name `ghost`. -/
theorem stopProcess_absent_name_fails_without_mutation_witness :
    listGet "ghost" st0.runningProcesses = none ∧
    stopProcess wOk st0 "ghost" =
      ({ success := false, message := some ("No running process named " ++ "ghost") }, st0) :=
  ⟨rfl, stopProcess_absent_name_fails_without_mutation wOk st0 "ghost" rfl⟩

/-- C7: for every process name present in the registry, `stopProcess`
sends a termination signal (the handle lands in `killAttempts`),
removes the entry, and reports success as long as `kill()` does not
throw — in particular in the race where the process already exited
naturally and the signal is simply not deliverable
(`KillOutcome.notDelivered`). -/
theorem stopProcess_success_despite_kill_race
    (w : World) (st : SessionState) (name : String) (entry : ProcEntry)
    (hreg : listGet name st.runningProcesses = some entry)
    (hnd : (keysOf st.runningProcesses).Nodup)
    (hk : w.killOut entry.pid ≠ KillOutcome.threw) :
    (stopProcess w st name).1.success = true ∧
    entry.pid ∈ (stopProcess w st name).2.killAttempts ∧
    listGet name (stopProcess w st name).2.runningProcesses = none := by
  cases hko : w.killOut entry.pid with
  | threw => exact absurd hko hk
  | delivered =>
    simp only [stopProcess, hreg, hko]
    exact ⟨trivial, by simp, by simpa using listGet_listDel_self hnd⟩
  | notDelivered =>
    simp only [stopProcess, hreg, hko]
    exact ⟨trivial, by simp, by simpa using listGet_listDel_self hnd⟩

/-- Witness for C7: stopping `bg` in a world where the kill races a
natural exit. -/
theorem stopProcess_success_despite_kill_race_witness :
    listGet "bg" stOne.runningProcesses = some { pid := 10, command := "sleep 1000" } ∧
    (keysOf stOne.runningProcesses).Nodup ∧
    wKillRace.killOut 10 ≠ KillOutcome.threw ∧
    ((stopProcess wKillRace stOne "bg").1.success = true ∧
     10 ∈ (stopProcess wKillRace stOne "bg").2.killAttempts ∧
     listGet "bg" (stopProcess wKillRace stOne "bg").2.runningProcesses = none) :=
  ⟨rfl, by decide, by decide,
   stopProcess_success_despite_kill_race wKillRace stOne "bg"
     { pid := 10, command := "sleep 1000" } rfl (by decide) (by decide)⟩

/-- C9: a database operation with `dbType` equal to `mysql`, `postgres`
or `sqlite` returns the non-error not-implemented outcome (`null`,
embedded as `.ok none`, after printing the notice) without throwing,
while any `dbType` outside the four accepted strings throws the
`Unsupported database type` error. -/
theorem handleDatabaseOperation_stub_and_unsupported
    (w : World) (st : SessionState) (op : DatabaseOperation) :
    ((op.dbType = "mysql" ∨ op.dbType = "postgres" ∨ op.dbType = "sqlite") →
      handleDatabaseOperation w st op = (.ok none, st)) ∧
    (op.dbType ≠ "mongodb" → op.dbType ≠ "mysql" → op.dbType ≠ "postgres" →
      op.dbType ≠ "sqlite" →
      handleDatabaseOperation w st op =
        (.error ("Unsupported database type: " ++ op.dbType), st)) := by
  constructor
  · rintro (h | h | h) <;> simp [handleDatabaseOperation, h]
  · intro h1 h2 h3 h4
    unfold handleDatabaseOperation
    split
    · simp_all
    · simp_all
    · simp_all
    · simp_all
    · rfl

/-- Witness for C9: `mysql` yields the stub outcome, `oracle` throws. -/
theorem handleDatabaseOperation_stub_and_unsupported_witness :
    (handleDatabaseOperation wOk st0 { dbType := "mysql", action := "query" } = (.ok none, st0)) ∧
    (handleDatabaseOperation wOk st0 { dbType := "oracle", action := "query" } =
      (.error ("Unsupported database type: " ++ "oracle"), st0)) :=
  ⟨(handleDatabaseOperation_stub_and_unsupported wOk st0
      { dbType := "mysql", action := "query" }).1 (Or.inl rfl),
   (handleDatabaseOperation_stub_and_unsupported wOk st0
      { dbType := "oracle", action := "query" }).2
     (by decide) (by decide) (by decide) (by decide)⟩

/-- C1: for every package operation carrying a `directory` field, and
for every outcome of the built shell command (and of the command
construction itself), the process working directory after
`handlePackageOperation` equals its pre-call value — given the
program's standing invariant that at entry the process working
directory and `projectState.currentDirectory` agree. -/
theorem handlePackageOperation_restores_directory
    (w : World) (st : SessionState) (op : PackageOperation) (d : String)
    (hdir : op.directory = some d) (hsync : st.cwd = st.currentDirectory) :
    (handlePackageOperation w st op).2.cwd = st.cwd := by
  simp only [handlePackageOperation, hdir]
  split
  · simp [hsync]
  · split <;> simp [hdir, hsync]

/-- Witness for C1: an npm install into `app` whose shell command
fails. -/
theorem handlePackageOperation_restores_directory_witness :
    c1op.directory = some "app" ∧ st0.cwd = st0.currentDirectory ∧
    (handlePackageOperation wExecFail st0 c1op).2.cwd = st0.cwd :=
  ⟨rfl, rfl, handlePackageOperation_restores_directory wExecFail st0 c1op "app" rfl rfl⟩

/-! ### Exit-sequence lemmas (C2) -/

theorem exitStopLoop_spec (w : World) (l : List (String × ProcEntry)) :
    ∀ st : SessionState, st.runningProcesses = l →
      (∀ e ∈ l, w.killOut e.2.pid ≠ KillOutcome.threw) →
      exitStopLoop w st l =
        { st with
          runningProcesses := []
          killAttempts := st.killAttempts ++ l.map (fun e => e.2.pid) } := by
  induction l with
  | nil =>
    intro st hreg _
    simp only [exitStopLoop, List.map_nil, List.append_nil]
    cases st
    simp_all
  | cons p rest ih =>
    obtain ⟨name, e⟩ := p
    intro st hreg hk
    have hget : listGet name st.runningProcesses = some e := by
      rw [hreg]; simp
    have hdel : listDel name st.runningProcesses = rest := by
      rw [hreg]; simp
    have hstop : (stopProcess w st name).2 =
        { st with
          runningProcesses := rest
          killAttempts := st.killAttempts ++ [e.pid] } := by
      cases hko : w.killOut e.pid with
      | threw => exact absurd hko (hk (name, e) (by simp))
      | delivered => simp [stopProcess, hget, hko, hdel]
      | notDelivered => simp [stopProcess, hget, hko, hdel]
    simp only [exitStopLoop]
    rw [hstop, ih _ rfl (fun q hq => hk q (by simp [hq]))]
    simp

theorem exitWatcherLoop_spec (w : World) (l : List (String × Nat)) :
    ∀ st : SessionState, (∀ p ∈ l, w.watcherCloseOk p.2 = true) →
      exitWatcherLoop w st l =
        .ok { st with closedWatchers := st.closedWatchers ++ l.map Prod.snd } := by
  induction l with
  | nil =>
    intro st _
    simp [exitWatcherLoop]
  | cons p rest ih =>
    obtain ⟨path, wid⟩ := p
    intro st hw
    have h1 : w.watcherCloseOk wid = true := hw (path, wid) (by simp)
    simp only [exitWatcherLoop, h1, if_true]
    rw [ih _ (fun q hq => hw q (by simp [hq]))]
    simp

theorem exitDbLoop_spec (w : World) (l : List (String × Nat)) :
    ∀ st : SessionState, (∀ p ∈ l, w.dbCloseOk p.2 = true) →
      exitDbLoop w st l =
        .ok { st with closedDbs := st.closedDbs ++ l.map Prod.snd } := by
  induction l with
  | nil =>
    intro st _
    simp [exitDbLoop]
  | cons p rest ih =>
    obtain ⟨cs, cid⟩ := p
    intro st hd
    have h1 : w.dbCloseOk cid = true := hd (cs, cid) (by simp)
    simp only [exitDbLoop, h1, if_true]
    rw [ih _ (fun q hq => hd q (by simp [hq]))]
    simp

/-- C2 counterexample: with one tracked process, one watcher and one
database connection and with every stop/close call succeeding, the
exit sequence leaves the watcher and database registries non-empty
(closing never removes their entries); moreover a watcher whose
`close()` throws makes the exit sequence itself propagate the
exception instead of swallowing it. -/
theorem exitCleanup_claim_false :
    (exitCleanup wOk stOne).map SessionState.fileWatchers = .ok [("/home/user/watched", 20)] ∧
    [("/home/user/watched", 20)] ≠ ([] : List (String × Nat)) ∧
    (exitCleanup wOk stOne).map SessionState.databases = .ok [("mongodb://localhost/app", 30)] ∧
    [("mongodb://localhost/app", 30)] ≠ ([] : List (String × Nat)) ∧
    exitCleanup wWatcherCloseFail stOne = .error "watcher close failed" :=
  ⟨rfl, by decide, rfl, by decide, rfl⟩

/-- C2 (amended): executing the exit sequence stops every tracked
process (emptying the process registry and signalling every handle)
and closes every watcher and every database connection — provided no
kill throws and every close succeeds — but the watcher and database
registries keep their entries; an individual watcher or connection
close failure is not swallowed (it propagates and aborts the remaining
cleanup, see the counterexample), only process-stop failures are. -/
theorem exitCleanup_drains_processes_but_keeps_other_registries
    (w : World) (st : SessionState)
    (hk : ∀ e ∈ st.runningProcesses, w.killOut e.2.pid ≠ KillOutcome.threw)
    (hw : ∀ p ∈ st.fileWatchers, w.watcherCloseOk p.2 = true)
    (hd : ∀ p ∈ st.databases, w.dbCloseOk p.2 = true) :
    exitCleanup w st =
      .ok { st with
            runningProcesses := []
            killAttempts := st.killAttempts ++ st.runningProcesses.map (fun e => e.2.pid)
            closedWatchers := st.closedWatchers ++ st.fileWatchers.map Prod.snd
            closedDbs := st.closedDbs ++ st.databases.map Prod.snd } := by
  unfold exitCleanup
  rw [exitStopLoop_spec w st.runningProcesses st rfl hk]
  dsimp only
  rw [exitWatcherLoop_spec w st.fileWatchers _ hw]
  dsimp only
  rw [exitDbLoop_spec w st.databases _ hd]

/-- Witness for the amended C2 at the one-of-each state. -/
theorem exitCleanup_drains_witness :
    (∀ e ∈ stOne.runningProcesses, wOk.killOut e.2.pid ≠ KillOutcome.threw) ∧
    (∀ p ∈ stOne.fileWatchers, wOk.watcherCloseOk p.2 = true) ∧
    (∀ p ∈ stOne.databases, wOk.dbCloseOk p.2 = true) ∧
    exitCleanup wOk stOne =
      .ok { stOne with
            runningProcesses := []
            killAttempts := [10]
            closedWatchers := [20]
            closedDbs := [30] } :=
  ⟨by decide, by decide, by decide,
   exitCleanup_drains_processes_but_keeps_other_registries wOk stOne
     (by decide) (by decide) (by decide)⟩

/-! ### Process-registry lemmas (C3, C10) -/

theorem stopProcess_registry_nodup (w : World) (st : SessionState) (n : String)
    (h : (keysOf st.runningProcesses).Nodup) :
    (keysOf (stopProcess w st n).2.runningProcesses).Nodup := by
  cases hget : listGet n st.runningProcesses with
  | none => simpa [stopProcess, hget] using h
  | some entry =>
    cases hko : w.killOut entry.pid with
    | threw => simpa [stopProcess, hget, hko] using h
    | delivered =>
      simp only [stopProcess, hget, hko]
      exact nodup_keys_listDel h
    | notDelivered =>
      simp only [stopProcess, hget, hko]
      exact nodup_keys_listDel h

theorem stopProcess_nextPid (w : World) (st : SessionState) (n : String) :
    (stopProcess w st n).2.nextPid = st.nextPid := by
  cases hget : listGet n st.runningProcesses with
  | none => simp [stopProcess, hget]
  | some entry => cases hko : w.killOut entry.pid <;> simp [stopProcess, hget, hko]

theorem stopProcess_kills_entry (w : World) (st : SessionState) (n : String)
    (entry : ProcEntry)
    (hget : listGet n st.runningProcesses = some entry) :
    (stopProcess w st n).2.killAttempts = st.killAttempts ++ [entry.pid] := by
  cases hko : w.killOut entry.pid <;> simp [stopProcess, hget, hko]

theorem startProcess_registry_nodup (w : World) (st : SessionState)
    (command : String) (options : StartOptions)
    (h : (keysOf st.runningProcesses).Nodup) :
    (keysOf (startProcess w st command options).2.runningProcesses).Nodup := by
  have hstop := stopProcess_registry_nodup w st
    (options.name.getD (startFirstToken command)) h
  unfold startProcess
  dsimp only
  split
  · split
    · split
      · exact hstop
      · exact h
    · split
      · exact hstop
      · exact h
  · split
    · exact nodup_keys_listSet hstop
    · exact nodup_keys_listSet h

theorem startProcess_stops_previous (w : World) (st : SessionState)
    (command : String) (options : StartOptions) (entry : ProcEntry)
    (hreg : listGet (options.name.getD (startFirstToken command))
      st.runningProcesses = some entry) :
    entry.pid ∈ (startProcess w st command options).2.killAttempts := by
  have hisSome : (listGet (options.name.getD (startFirstToken command))
      st.runningProcesses).isSome = true := by rw [hreg]; rfl
  have hka := stopProcess_kills_entry w st
    (options.name.getD (startFirstToken command)) entry hreg
  unfold startProcess
  dsimp only
  rw [hisSome]
  simp only [if_true]
  split
  · split <;> simp [hka]
  · simp [hka]

theorem runStartCalls_registry_nodup (w : World) (calls : List StartCall) :
    ∀ st : SessionState, (keysOf st.runningProcesses).Nodup →
      (keysOf (runStartCalls w st calls).runningProcesses).Nodup := by
  induction calls with
  | nil => intro st h; simpa [runStartCalls] using h
  | cons c rest ih =>
    intro st h
    simp only [runStartCalls, List.foldl_cons]
    exact ih ((startProcess w st c.command c.options).2)
      (startProcess_registry_nodup w st c.command c.options h)

/-- C3: starting from a registry with no duplicate names, after any
sequence of `startProcess` calls there is at most one registry entry
for any given name (in particular for a reused one); and any single
`startProcess` whose (explicit or defaulted) name is already
registered first signals the previously registered process — its
handle lands in `killAttempts` before the new process is registered. -/
theorem startProcess_at_most_one_entry_per_name
    (w : World) (st : SessionState) (calls : List StartCall) (name : String)
    (command : String) (options : StartOptions) (entry : ProcEntry)
    (hnd : (keysOf st.runningProcesses).Nodup)
    (hname : options.name.getD (startFirstToken command) = name)
    (hreg : listGet name st.runningProcesses = some entry) :
    (runStartCalls w st calls).runningProcesses.countP (fun e => e.1 = name) ≤ 1 ∧
    entry.pid ∈ (startProcess w st command options).2.killAttempts := by
  constructor
  · exact countP_key_le_one (runStartCalls_registry_nodup w calls st hnd)
  · exact startProcess_stops_previous w st command options entry (by rw [hname, hreg])

/-- Witness for C3: two default-named `node` starts, then a restart of
the registered name `bg`. -/
theorem startProcess_at_most_one_entry_per_name_witness :
    (keysOf stOne.runningProcesses).Nodup ∧
    (({ name := some "bg" } : StartOptions).name.getD (startFirstToken "restart") = "bg") ∧
    listGet "bg" stOne.runningProcesses = some { pid := 10, command := "sleep 1000" } ∧
    ((runStartCalls wOk stOne
        [{ command := "node a.js", options := {} },
         { command := "node b.js", options := {} }]).runningProcesses.countP
          (fun e => e.1 = "bg") ≤ 1 ∧
     10 ∈ (startProcess wOk stOne "restart" { name := some "bg" }).2.killAttempts) :=
  ⟨by decide, by decide, rfl,
   startProcess_at_most_one_entry_per_name wOk stOne
     [{ command := "node a.js", options := {} },
      { command := "node b.js", options := {} }] "bg" "restart"
     { name := some "bg" } { pid := 10, command := "sleep 1000" }
     (by decide) (by decide) rfl⟩

/-- C10: when `options.name` is omitted, the registry key defaults to
the first space-separated token of the command; two background starts
of different commands sharing that token collide on the single key:
after both, exactly one entry for the token exists, it carries the
second command, and the first spawned process has been signalled. -/
theorem startProcess_default_name_collision
    (w : World) (st : SessionState) (cmd1 cmd2 tok : String) (options : StartOptions)
    (hname : options.name = none) (hwait : options.waitForExit = false)
    (h1 : startFirstToken cmd1 = tok) (h2 : startFirstToken cmd2 = tok)
    (habsent : listGet tok st.runningProcesses = none)
    (hnd : (keysOf st.runningProcesses).Nodup) :
    listGet tok (startProcess w st cmd1 options).2.runningProcesses =
      some { pid := st.nextPid, command := cmd1, logFile := options.logFile } ∧
    listGet tok
        (startProcess w (startProcess w st cmd1 options).2 cmd2 options).2.runningProcesses =
      some { pid := (startProcess w st cmd1 options).2.nextPid, command := cmd2,
             logFile := options.logFile } ∧
    st.nextPid ∈
      (startProcess w (startProcess w st cmd1 options).2 cmd2 options).2.killAttempts ∧
    (startProcess w (startProcess w st cmd1 options).2 cmd2
        options).2.runningProcesses.countP (fun e => e.1 = tok) = 1 := by
  have hstep1 : (startProcess w st cmd1 options).2 =
      { st with
        runningProcesses :=
          listSet tok { pid := st.nextPid, command := cmd1, logFile := options.logFile }
            st.runningProcesses
        nextPid := st.nextPid + 1 } := by
    simp [startProcess, hname, h1, habsent, hwait]
  have hget1 : listGet tok (startProcess w st cmd1 options).2.runningProcesses =
      some { pid := st.nextPid, command := cmd1, logFile := options.logFile } := by
    rw [hstep1]
    exact listGet_listSet_self tok _ st.runningProcesses
  have hnd1 : (keysOf (startProcess w st cmd1 options).2.runningProcesses).Nodup :=
    startProcess_registry_nodup w st cmd1 options hnd
  refine ⟨hget1, ?_, ?_, ?_⟩
  · -- the second start registers the second command under the same key
    generalize hst1 : (startProcess w st cmd1 options).2 = st1 at hget1 ⊢
    have hisSome : (listGet (options.name.getD (startFirstToken cmd2))
        st1.runningProcesses).isSome = true := by
      rw [hname, Option.getD_none, h2, hget1]; rfl
    unfold startProcess
    dsimp only
    rw [hname, Option.getD_none, h2] at hisSome ⊢
    simp only [hisSome, if_true, hwait, Bool.false_eq_true, if_false]
    rw [stopProcess_nextPid]
    exact listGet_listSet_self tok _ _
  · -- the first process was signalled
    have hmem := startProcess_stops_previous w (startProcess w st cmd1 options).2 cmd2 options
      { pid := st.nextPid, command := cmd1, logFile := options.logFile }
      (by rw [hname, Option.getD_none, h2, hget1])
    simpa using hmem
  · -- exactly one entry for the token remains
    generalize hst1 : (startProcess w st cmd1 options).2 = st1 at hget1 hnd1 ⊢
    have hnd2 : (keysOf (stopProcess w st1 tok).2.runningProcesses).Nodup :=
      stopProcess_registry_nodup w st1 tok hnd1
    have hisSome : (listGet (options.name.getD (startFirstToken cmd2))
        st1.runningProcesses).isSome = true := by
      rw [hname, Option.getD_none, h2, hget1]; rfl
    unfold startProcess
    dsimp only
    rw [hname, Option.getD_none, h2] at hisSome ⊢
    simp only [hisSome, if_true, hwait, Bool.false_eq_true, if_false]
    exact countP_key_listSet_self tok _ _ (countP_key_le_one hnd2)

/-- Witness for C10: `node a.js` then `node b.js`, both unnamed. -/
theorem startProcess_default_name_collision_witness :
    (({} : StartOptions).name = none) ∧ (({} : StartOptions).waitForExit = false) ∧
    startFirstToken "node a.js" = "node" ∧ startFirstToken "node b.js" = "node" ∧
    listGet "node" st0.runningProcesses = none ∧
    (keysOf st0.runningProcesses).Nodup ∧
    (listGet "node" (startProcess wOk st0 "node a.js" {}).2.runningProcesses =
      some { pid := st0.nextPid, command := "node a.js", logFile := none } ∧
    listGet "node"
        (startProcess wOk (startProcess wOk st0 "node a.js" {}).2 "node b.js"
          {}).2.runningProcesses =
      some { pid := (startProcess wOk st0 "node a.js" {}).2.nextPid, command := "node b.js",
             logFile := none } ∧
    st0.nextPid ∈
      (startProcess wOk (startProcess wOk st0 "node a.js" {}).2 "node b.js"
        {}).2.killAttempts ∧
    (startProcess wOk (startProcess wOk st0 "node a.js" {}).2 "node b.js"
        {}).2.runningProcesses.countP (fun e => e.1 = "node") = 1) :=
  ⟨rfl, rfl, by decide, by decide, rfl, by decide,
   startProcess_default_name_collision wOk st0 "node a.js" "node b.js" "node" {}
     rfl rfl (by decide) (by decide) rfl (by decide)⟩

/-! ### Watcher lemmas (C6) -/

theorem countP_pos_of_listGet_some {k : String} {l : List (String × α)} {v : α}
    (h : listGet k l = some v) : 1 ≤ l.countP (fun e => e.1 = k) := by
  induction l with
  | nil => simp [listGet] at h
  | cons p rest ih =>
    obtain ⟨k', v'⟩ := p
    by_cases hk : k' = k
    · simp [List.countP_cons, hk]
    · simp only [listGet_cons, if_neg hk] at h
      have := ih h
      simp only [List.countP_cons, decide_eq_true_eq, hk, if_false, add_zero]
      exact this

theorem watchFiles_currentDirectory (st : SessionState) (p : String) :
    (watchFiles st p).currentDirectory = st.currentDirectory := by
  unfold watchFiles
  split <;> rfl

theorem watchFiles_registered (st : SessionState) (p : String) :
    (listGet p (watchFiles st p).fileWatchers).isSome = true := by
  unfold watchFiles
  split
  · assumption
  · simp [listGet_listSet_self]

theorem watchFiles_already (st : SessionState) (p : String)
    (h : (listGet p st.fileWatchers).isSome = true) : watchFiles st p = st := by
  unfold watchFiles
  rw [if_pos h]

theorem watchFiles_count (st : SessionState) (p : String)
    (h : st.fileWatchers.countP (fun e => e.1 = p) ≤ 1) :
    (watchFiles st p).fileWatchers.countP (fun e => e.1 = p) = 1 := by
  unfold watchFiles
  split
  · next hs =>
    obtain ⟨v, hv⟩ := Option.isSome_iff_exists.mp hs
    exact le_antisymm h (countP_pos_of_listGet_some hv)
  · exact countP_key_listSet_self p _ _ h

/-- C6: invoking the `watch` file-operation twice (or more) on the same
path leaves exactly one watcher entry for that path's resolved
directory, and every invocation after the first is a no-op on the
session state. -/
theorem watch_idempotent_per_path (st : SessionState) (p : String)
    (hcount : st.fileWatchers.countP (fun e => e.1 = resolveProjectPath st p) ≤ 1) :
    ((performFileOperation st { action := "watch", path := p }).2.fileWatchers.countP
        (fun e => e.1 = resolveProjectPath st p) = 1) ∧
    (performFileOperation (performFileOperation st { action := "watch", path := p }).2
        { action := "watch", path := p }).2 =
      (performFileOperation st { action := "watch", path := p }).2 := by
  have hred : ∀ s : SessionState,
      (performFileOperation s { action := "watch", path := p }).2 =
        watchFiles s (resolveProjectPath s p) := fun s => rfl
  constructor
  · rw [hred]
    exact watchFiles_count st _ hcount
  · rw [hred, hred]
    have hdir : resolveProjectPath (watchFiles st (resolveProjectPath st p)) p =
        resolveProjectPath st p := by
      unfold resolveProjectPath
      rw [watchFiles_currentDirectory]
    rw [hdir]
    exact watchFiles_already _ _ (watchFiles_registered st _)

/-- Witness for C6: watching `src` twice from the base state. -/
theorem watch_idempotent_per_path_witness :
    st0.fileWatchers.countP (fun e => e.1 = resolveProjectPath st0 "src") ≤ 1 ∧
    ((performFileOperation st0 { action := "watch", path := "src" }).2.fileWatchers.countP
        (fun e => e.1 = resolveProjectPath st0 "src") = 1 ∧
     (performFileOperation (performFileOperation st0 { action := "watch", path := "src" }).2
        { action := "watch", path := "src" }).2 =
       (performFileOperation st0 { action := "watch", path := "src" }).2) :=
  ⟨by decide, watch_idempotent_per_path st0 "src" (by decide)⟩

/-! ### Dispatcher-loop lemmas (C5) -/

theorem runActions_append_ok (w : World) (pre : List Action) :
    ∀ (st st1 : SessionState) (rest : List Action),
      runActionsOk w st pre = some st1 →
      runActions w st (pre ++ rest) = runActions w st1 rest := by
  induction pre with
  | nil =>
    intro st st1 rest h
    simp only [runActionsOk, Option.some.injEq] at h
    subst h
    simp
  | cons a pre' ih =>
    intro st st1 rest h
    simp only [runActionsOk] at h
    rcases hres : executeAction w st a with ⟨r, st'⟩
    rw [hres] at h
    cases r with
    | ok _ =>
      simp only at h
      simp only [List.cons_append, runActions, hres]
      exact ih st' st1 rest h
    | error e => simp at h

/-- C5: if every action before index `k` of a plan succeeds and the
action at index `k` throws, the dispatcher runs no action after index
`k`, `executeAICommand` reports failure (`false`), and the session
state is exactly the state the failing action left behind — effects of
the earlier actions (files written, registry entries created) are not
rolled back. -/
theorem dispatcher_aborts_on_failure_without_rollback
    (w : World) (st st1 st2 : SessionState) (pre rest : List Action) (a : Action)
    (e : String)
    (hpre : runActionsOk w st pre = some st1)
    (hfail : executeAction w st1 a = (.error e, st2)) :
    runActions w st (pre ++ a :: rest) = (false, st2) := by
  rw [runActions_append_ok w pre st st1 (a :: rest) hpre]
  simp only [runActions, hfail]

/-- Witness for C5: write `a.txt`, then a failing `git clone`, then a
write of `b.txt` that must not run; the final state still holds
`a.txt` and nothing else. -/
theorem dispatcher_aborts_on_failure_without_rollback_witness :
    runActionsOk wExecFail st0 [c5write] = some c5st1 ∧
    executeAction wExecFail c5st1 c5fail =
      (.error ("Command failed: " ++ ("git clone " ++ "https://example.com/r.git")), c5st1) ∧
    runActions wExecFail st0 [c5write, c5fail, c5rest] = (false, c5st1) :=
  ⟨rfl, rfl,
   dispatcher_aborts_on_failure_without_rollback wExecFail st0 c5st1 c5st1
     [c5write] [c5rest] c5fail ("Command failed: " ++ ("git clone " ++ "https://example.com/r.git"))
     rfl rfl⟩

/-! ### Plan-parse evaluation (C4) -/

/-- C4 (code bug): the clean-and-extract step of `executeAICommand`
calls `JSON.parse` on the cleaned response BEFORE the brace-extraction
step, so a model response that wraps its one balanced JSON object in
prose throws at that first parse and the extraction code — introduced,
per its own comment, precisely for responses with explanatory text —
is unreachable; only fence-wrapped (or bare) objects are recovered. -/
theorem extractPlanJson_prose_fails_fences_work :
    extractPlanJson c4ProseInput = .error "SyntaxError: Unexpected token in JSON" ∧
    extractPlanJson c4FencedInput = .ok "\x7b\"type\": \"git\", \"actions\": []\x7d" :=
  ⟨rfl, rfl⟩

end SlaveShell
